import Mathlib

/-!
Verification of the lighthouse-global-tester scheduler core.

Shallow embedding of:
* the audit execution engine `runAudit` (src/unnamed/part_010, the enhanced
  variant of src/lighthouse-runner.js): retry loop, error classification,
  escalating retry delays, failure-result shape, timeout-handler ordering;
* the categorizer `getDomainsByCategory` and the allocator
  `calculateAdaptiveAllocation` / `getSmartBatch` (src/database.js);
* the batch runner loop of `runSmartBatch` (src/smart-batch-tester.js);
* `saveScore` (src/database.js).

JavaScript strings are modelled as `List Char`; JS timestamps (Date values,
millisecond numbers) as `ℚ`; machine floats are modelled by exact rational
arithmetic. Fallible external calls (the lighthouse invocation, the tester
call of the batch loop) are modelled as explicit behaviour parameters, so a
theorem quantifying over the behaviour covers every input url and every
outcome of the external tool.
-/

namespace LighthouseTester

/-! ### JavaScript string primitives -/

/-- JS `String.prototype.includes(needle)` on strings as `List Char`:
`true` when `needle` occurs as a contiguous substring of `hay`. -/
def includes (hay needle : List Char) : Bool :=
  match hay with
  | [] => needle.isPrefixOf ([] : List Char)
  | c :: t => needle.isPrefixOf (c :: t) || includes t needle

/-! ### Audit execution engine (src/unnamed/part_010, `runAudit`) -/

/-- A JS `Error` as inspected by `runAudit`: the fields read during
classification are `message`, `name`, `constructor.name` and the optional
`stack`. -/
structure JsError where
  message : List Char
  name : List Char
  ctorName : List Char
  stack : Option (List Char)
deriving DecidableEq

/-- An `Error` constructed by `new Error(msg)` inside `runAudit` itself. -/
def mkJsError (msg : String) : JsError :=
  { message := msg.data, name := "Error".data, ctorName := "Error".data, stack := none }

/-- The error rejected by the timeout race,
`new Error` with message `Lighthouse audit timeout after 60000ms`. -/
def timeoutError : JsError := mkJsError "Lighthouse audit timeout after 60000ms"

/-- The error thrown on a malformed lighthouse result,
`new Error` with message `Invalid Lighthouse result - missing categories data`. -/
def invalidResultError : JsError := mkJsError "Invalid Lighthouse result - missing categories data"

/-- The `retryableErrors` vocabulary of src/unnamed/part_010 lines 201-219. -/
def retryableErrors : List (List Char) :=
  [ "TargetCloseError".data
  , "Protocol error".data
  , "Session closed".data
  , "Connection refused".data
  , "timeout".data
  , "Navigation timeout".data
  , "Page crashed".data
  , "Target closed".data
  , "WebSocket is not open".data
  , "net::ERR_".data
  , "net::".data
  , "ERR_CONNECTION".data
  , "ERR_TIMED_OUT".data
  , "ERR_NETWORK_CHANGED".data
  , "ECONNREFUSED".data
  , "ENOTFOUND".data
  , "ETIMEDOUT".data ]

/-- `isRetryable` of src/unnamed/part_010 lines 221-226.  Note that, as in
the source, the checks on `constructor.name` and `stack` are performed
inside the `some`-lambda but do not depend on the vocabulary entry. -/
def isRetryable (e : JsError) : Bool :=
  retryableErrors.any fun errorType =>
    includes e.message errorType ||
    includes e.name errorType ||
    includes e.ctorName ("TargetCloseError".data) ||
    (match e.stack with
     | some s => includes s ("TargetCloseError".data)
     | none => false)

/-- `this.maxRetries` (src/unnamed/part_010 line 6). -/
def maxRetries : Nat := 2

/-- `this.retryDelay` in milliseconds (src/unnamed/part_010 line 7). -/
def retryDelay : Nat := 3000

/-- The escalating delay computation of src/unnamed/part_010 lines 231-242:
base delay; tripled for target-closed errors, else doubled for
timeout-marked errors; overridden to quadruple for connection errors. -/
def computeRetryDelay (e : JsError) : Nat :=
  let delayTime := retryDelay
  let delayTime :=
    if includes e.message ("TargetCloseError".data) || includes e.message ("Target closed".data) then
      retryDelay * 3
    else if includes e.message ("timeout".data) then
      retryDelay * 2
    else delayTime
  if includes e.message ("ERR_CONNECTION".data) || includes e.message ("ECONNREFUSED".data) then
    retryDelay * 4
  else delayTime

/-- A raw lighthouse category entry: `{ score }` where `score` may be absent
and otherwise is a number in `[0,1]`. -/
structure CategoryScore where
  score : Option ℚ
deriving DecidableEq

/-- `runnerResult.lhr.categories`, each category possibly absent. -/
structure Categories where
  performance : Option CategoryScore
  accessibility : Option CategoryScore
  best_practices : Option CategoryScore
  seo : Option CategoryScore
  pwa : Option CategoryScore
deriving DecidableEq

/-- `runnerResult.lhr`, whose `categories` field may be absent. -/
structure LhrResult where
  categories : Option Categories
deriving DecidableEq

/-- The value the lighthouse call resolves with; `lhr` may be absent. -/
structure RunnerResult where
  lhr : Option LhrResult
deriving DecidableEq

/-- `categories.X?.score ? Math.round(categories.X.score * 100) : 0`
(src/unnamed/part_010 lines 169-175): absent category, absent score or a
score of `0` (falsy) give `0`, otherwise the score is scaled to a rounded
integer percentage. -/
def scoreToInt (c : Option CategoryScore) : ℤ :=
  match c with
  | none => 0
  | some cs =>
    match cs.score with
    | none => 0
    | some q => if q = 0 then 0 else round (q * 100)

/-- Behaviour of one attempt of the supervised external audit call:
the chrome launch may throw, the raced lighthouse invocation may resolve
(possibly with a null or malformed value), throw, or lose against the
60-second timeout. -/
inductive AttemptEvent where
  | launchFails (e : JsError)
  | resolves (r : Option RunnerResult)
  | throws (e : JsError)
  | timesOut
deriving DecidableEq

/-- Outcome of the try-block of one attempt: either well-formed categories,
or the JS error that reaches the catch-block.  A resolved value that is
null, has no `lhr` or has no `categories` throws `invalidResultError`
(src/unnamed/part_010 lines 163-165); the timeout race rejects with
`timeoutError` (line 126). -/
def attemptOutcome : AttemptEvent → Categories ⊕ JsError
  | .launchFails e => Sum.inr e
  | .throws e => Sum.inr e
  | .timesOut => Sum.inr timeoutError
  | .resolves r =>
    match r with
    | none => Sum.inr invalidResultError
    | some rr =>
      match rr.lhr with
      | none => Sum.inr invalidResultError
      | some lhr =>
        match lhr.categories with
        | none => Sum.inr invalidResultError
        | some cats => Sum.inl cats

/-- The value `runAudit` returns: the success shape (five rounded integer
scores, src/unnamed/part_010 lines 169-177) or the failure shape (five
scores plus `error: true` and a truncated `errorMessage`, lines 250-258).
The two constructors model the presence and absence of the `error` flag. -/
inductive RunResult where
  | scores (performance accessibility bestPractices seo pwa : ℤ)
  | failure (performance accessibility bestPractices seo pwa : ℤ) (errorMessage : List Char)
deriving DecidableEq

/-- `runAudit(url, retryCount)` of src/unnamed/part_010 lines 24-296,
with the per-attempt behaviour of the external tool abstracted as
`env : Nat → AttemptEvent` (attempt `r` behaves as `env r`); the url only
feeds that external call.  Returns the result together with the ordered
list of `_sleep` retry delays awaited before recursing.  A caught error is
retried when `retryCount < maxRetries` and the error is retryable
(lines 228-245), otherwise the zero-score failure result with the message
truncated to 100 characters is returned (lines 250-258). -/
def runAudit (env : Nat → AttemptEvent) (retryCount : Nat) : RunResult × List Nat :=
  match attemptOutcome (env retryCount) with
  | Sum.inl cats =>
    (RunResult.scores (scoreToInt cats.performance) (scoreToInt cats.accessibility)
      (scoreToInt cats.best_practices) (scoreToInt cats.seo) (scoreToInt cats.pwa), [])
  | Sum.inr e =>
    if h : retryCount < maxRetries ∧ isRetryable e = true then
      let rest := runAudit env (retryCount + 1)
      (rest.1, computeRetryDelay e :: rest.2)
    else
      (RunResult.failure 0 0 0 0 0 (e.message.take 100), [])
termination_by maxRetries - retryCount
decreasing_by
  omega

/-! ### Timeout handler (src/unnamed/part_010, lines 97-129)

The callback scheduled for the 60-second timeout runs, in order: set
`isTimedOut`; when chrome was launched and not yet killed, attempt a
graceful `chrome.kill()` and, when that throws and a pid is known,
attempt a forced `process.kill(chrome.pid, SIGKILL)`; only then schedule
the rejection of the race with the timeout error.  The trace below lists
the externally visible events of this callback in program order. -/

/-- Events of the timeout callback, in the order they are performed. -/
inductive ChromeEvent where
  | gracefulKillAttempt
  | forceKillAttempt
  | timeoutFailureRejected
deriving DecidableEq

/-- Event trace of the timeout callback of src/unnamed/part_010
lines 99-128, as a function of the state when the timer fires:
`chromeLaunched` (the `chrome` variable is non-null), `chromeKilled`
(the guard flag), `gracefulKillOk` (whether `chrome.kill()` completes
without throwing) and `hasPid` (whether `chrome.pid` is set). -/
def timeoutHandlerTrace (chromeLaunched chromeKilled gracefulKillOk hasPid : Bool) :
    List ChromeEvent :=
  (if chromeLaunched && !chromeKilled then
    if gracefulKillOk then [ChromeEvent.gracefulKillAttempt]
    else
      ChromeEvent.gracefulKillAttempt ::
        (if hasPid then [ChromeEvent.forceKillAttempt] else [])
  else []) ++ [ChromeEvent.timeoutFailureRejected]

/-! ### Categorizer (src/database.js, `getDomainsByCategory`, lines 426-603)

The SQL aggregation is summarised per url by a `DbRow`; the map
`testedDomains` built from the query results is abstracted as a lookup
function `String → Option DbRow`.  The JavaScript classification
(lines 561-598) is embedded literally.  Timestamps are milliseconds as
`ℚ`; `now` is the instant `new Date()` of line 567. -/

/-- One element of `allDomains`, read from domains.json (lines 433-446). -/
structure DomainInfo where
  domain : String
  country : String
  industry : String
deriving DecidableEq

/-- The per-url aggregate row produced by the union query
(lines 499-539): total tests, successes, failures and the three latest
timestamps, each absent when the url has no row in the relevant table. -/
structure DbRow where
  total_tests : Nat
  success_count : Nat
  failure_count : Nat
  last_test_date : Option ℚ
  last_success_date : Option ℚ
  last_failure_date : Option ℚ
deriving DecidableEq

/-- The five categories of line 553-559. -/
inductive Category where
  | never_tested
  | reliable_success
  | recent_mixed
  | old_success
  | failed_only
deriving DecidableEq

/-- The fixed priority order of `calculateAdaptiveAllocation` line 678,
which is also the key order of the category records. -/
def priorityOrder : List Category :=
  [Category.never_tested, Category.reliable_success, Category.recent_mixed,
   Category.old_success, Category.failed_only]

/-- `(now - t) / (1000 * 60 * 60 * 24)`: age of timestamp `t` in days. -/
def daysBetween (now t : ℚ) : ℚ := (now - t) / (1000 * 60 * 60 * 24)

/-- The cooldown computation of lines 572-578: initialised to `0`;
when a last failure exists, `<1 day → 1`, else `<3 days → 3 - floor`,
else `<7 days → 7 - floor`, else left at `0`. -/
def cooldownFor (now : ℚ) (lastFailure : Option ℚ) : ℤ :=
  match lastFailure with
  | none => 0
  | some lf =>
    let daysSinceFailure := daysBetween now lf
    if daysSinceFailure < 1 then 1
    else if daysSinceFailure < 3 then 3 - ⌊daysSinceFailure⌋
    else if daysSinceFailure < 7 then 7 - ⌊daysSinceFailure⌋
    else 0

/-- `lastSuccess && (now - lastSuccess) / day <= bound`: false when no
success timestamp exists. -/
def successWithin (now : ℚ) (lastSuccess : Option ℚ) (bound : ℚ) : Bool :=
  match lastSuccess with
  | some ls => decide (daysBetween now ls ≤ bound)
  | none => false

/-- `lastSuccess && (now - lastSuccess) / day > bound`: false when no
success timestamp exists. -/
def successOlderThan (now : ℚ) (lastSuccess : Option ℚ) (bound : ℚ) : Bool :=
  match lastSuccess with
  | some ls => decide (bound < daysBetween now ls)
  | none => false

/-- The if-else chain of lines 581-589, applied when `dbData` exists.
The initial value `never_tested` of line 563 survives only when no branch
fires. -/
def categoryFor (now : ℚ) (d : DbRow) : Category :=
  if decide (3 ≤ d.success_count) && successWithin now d.last_success_date 7 then
    Category.reliable_success
  else if decide (0 < d.success_count) && successWithin now d.last_success_date 14 then
    Category.recent_mixed
  else if decide (0 < d.success_count) && successOlderThan now d.last_success_date 14 then
    Category.old_success
  else if decide (d.success_count = 0) || d.last_success_date.isNone ||
      successOlderThan now d.last_success_date 30 then
    Category.failed_only
  else Category.never_tested

/-- Category and cooldown of one domain (lines 562-590): with no db data
the defaults `never_tested` and cooldown `0` stand; otherwise the cooldown
derives from the last failure and the category from the success chain. -/
def categorizeDomain (now : ℚ) (dbData : Option DbRow) : Category × ℤ :=
  match dbData with
  | none => (Category.never_tested, 0)
  | some d => (categoryFor now d, cooldownFor now d.last_failure_date)

/-- An element pushed into a category pool (lines 592-597): the
domains.json fields spread together with the derived category and
cooldown.  The spread db columns are omitted: nothing downstream reads
them. -/
structure DomainEntry where
  domain : String
  country : String
  industry : String
  category : Category
  cooldownDaysRemaining : ℤ
deriving DecidableEq

/-- The record `categorizedDomains` of lines 553-559. -/
structure CategorizedDomains where
  never_tested : List DomainEntry
  reliable_success : List DomainEntry
  recent_mixed : List DomainEntry
  old_success : List DomainEntry
  failed_only : List DomainEntry
deriving DecidableEq

/-- Field access `categorizedDomains[category]`. -/
def poolOf (p : CategorizedDomains) : Category → List DomainEntry
  | Category.never_tested => p.never_tested
  | Category.reliable_success => p.reliable_success
  | Category.recent_mixed => p.recent_mixed
  | Category.old_success => p.old_success
  | Category.failed_only => p.failed_only

/-- The entry built for one domains.json record (lines 561-597). -/
def enrich (now : ℚ) (lookup : String → Option DbRow) (i : DomainInfo) : DomainEntry :=
  let cc := categorizeDomain now (lookup i.domain)
  { domain := i.domain, country := i.country, industry := i.industry,
    category := cc.1, cooldownDaysRemaining := cc.2 }

/-- The `allDomains.forEach` loop of lines 561-598: each domain is pushed
into the pool of its derived category, in order (a stable filter per
category). -/
def categorizeAll (now : ℚ) (lookup : String → Option DbRow)
    (allDomains : List DomainInfo) : CategorizedDomains :=
  let entries := allDomains.map (enrich now lookup)
  { never_tested := entries.filter fun e => decide (e.category = Category.never_tested)
  , reliable_success := entries.filter fun e => decide (e.category = Category.reliable_success)
  , recent_mixed := entries.filter fun e => decide (e.category = Category.recent_mixed)
  , old_success := entries.filter fun e => decide (e.category = Category.old_success)
  , failed_only := entries.filter fun e => decide (e.category = Category.failed_only) }

/-! ### Batch allocator (src/database.js, `getSmartBatch` lines 605-660 and
`calculateAdaptiveAllocation` lines 662-691)

The random shuffles (`[...pool].sort(() => Math.random() - 0.5)` line 628
and `unused.sort(...)` line 641) are abstracted as rearrangement-function
parameters; every theorem assumes only that they permute their input.
The percentage objects iterate in the canonical key order, which is
`priorityOrder`. -/

/-- The default percentages of line 605. -/
def defaultPercentages : Category → Nat
  | Category.never_tested => 70
  | Category.reliable_success => 10
  | Category.recent_mixed => 10
  | Category.old_success => 5
  | Category.failed_only => 5

/-- Lines 611-617: `never_tested` is passed through unfiltered, the other
four pools are filtered to cooldown-free entries. -/
def availableDomainsOf (p : CategorizedDomains) : Category → List DomainEntry
  | Category.never_tested => p.never_tested
  | Category.reliable_success =>
      p.reliable_success.filter fun d => decide (d.cooldownDaysRemaining = 0)
  | Category.recent_mixed =>
      p.recent_mixed.filter fun d => decide (d.cooldownDaysRemaining = 0)
  | Category.old_success =>
      p.old_success.filter fun d => decide (d.cooldownDaysRemaining = 0)
  | Category.failed_only =>
      p.failed_only.filter fun d => decide (d.cooldownDaysRemaining = 0)

/-- The redistribution loop of lines 676-687: walk the priority order,
adding to each category as much of the remaining slots as its pool still
has unallocated.  (The early `break` at `remaining <= 0` adds nothing and
is subsumed by `min`.) -/
def redistributeAux (availLen : Category → Nat) :
    List Category → (Category → Nat) → Nat → (Category → Nat)
  | [], alloc, _ => alloc
  | c :: rest, alloc, remaining =>
    let canAdd := min remaining (availLen c - alloc c)
    redistributeAux availLen rest
      (fun c' => if c' = c then alloc c + canAdd else alloc c') (remaining - canAdd)

/-- `calculateAdaptiveAllocation` (lines 662-691) over pool sizes:
first pass `min(floor(percentage/100 * batchSize), available)` per
category (exact rational arithmetic models the float product), then the
redistribution pass in priority order on the remaining slots. -/
def calculateAdaptiveAllocation (availLen : Category → Nat) (batchSize : Nat)
    (pct : Category → Nat) : Category → Nat :=
  let initial : Category → Nat := fun c => min (pct c * batchSize / 100) (availLen c)
  let totalAllocated := (priorityOrder.map initial).sum
  redistributeAux availLen priorityOrder initial (batchSize - totalAllocated)

/-- The per-category selection loop of lines 623-631: for each category
with a positive allocation and a non-empty pool, rearrange the pool and
take the allocated count. -/
def selChunks (alloc : Category → Nat) (avail : Category → List DomainEntry)
    (shuffle : Category → List DomainEntry → List DomainEntry) : List DomainEntry :=
  (priorityOrder.map fun c =>
    if 0 < alloc c ∧ avail c ≠ [] then (shuffle c (avail c)).take (alloc c) else []).flatten

/-- The shortfall filler of lines 633-644: when the selection is short of
`batchSize`, rearrange the not-yet-used available domains and append up to
the missing count. -/
def fillSelection (batchSize : Nat) (avail : Category → List DomainEntry)
    (fillShuffle : List DomainEntry → List DomainEntry) (sel : List DomainEntry) :
    List DomainEntry :=
  if sel.length < batchSize then
    let remaining := batchSize - sel.length
    let allAvailable := (priorityOrder.map avail).flatten
    let used := sel.map DomainEntry.domain
    let unused := allAvailable.filter fun d => decide (d.domain ∉ used)
    if unused ≠ [] then sel ++ (fillShuffle unused).take remaining else sel
  else sel

/-- The record resolved by `getSmartBatch` (lines 646-655). -/
structure BatchSelection where
  selectedDomains : List DomainEntry
  allocation : Category → Nat
  availableCounts : Category → Nat
  cooldownCounts : Category → Nat

/-- `getSmartBatch(batchSize, percentages)` of lines 605-660, applied to
already categorized pools (the awaited `getDomainsByCategory` result).
`shuffle` and `fillShuffle` stand for the random comparison sorts of
lines 628 and 641. -/
def getSmartBatch (p : CategorizedDomains) (batchSize : Nat) (pct : Category → Nat)
    (shuffle : Category → List DomainEntry → List DomainEntry)
    (fillShuffle : List DomainEntry → List DomainEntry) : BatchSelection :=
  let avail := availableDomainsOf p
  let alloc := calculateAdaptiveAllocation (fun c => (avail c).length) batchSize pct
  let sel := selChunks alloc avail shuffle
  let sel2 := fillSelection batchSize avail fillShuffle sel
  { selectedDomains := sel2.take batchSize
  , allocation := alloc
  , availableCounts := fun c => (avail c).length
  , cooldownCounts := fun c =>
      ((poolOf p c).filter fun d => decide (0 < d.cooldownDaysRemaining)).length }

/-! ### Batch runner loop (src/smart-batch-tester.js, `runSmartBatch`
lines 70-104)

The call `this.tester.testDomain(...)` is abstracted as a behaviour
function: for each target it either returns a result object (whose
`failed` flag drives the tally) or throws. -/

/-- The part of a per-target result the loop inspects. -/
structure BatchResult where
  url : String
  failed : Bool
deriving DecidableEq

/-- Behaviour of one engine invocation inside the loop. -/
inductive TesterBehaviour where
  | returns (r : BatchResult)
  | throws (msg : String)
deriving DecidableEq

/-- The outcome recorded for one target: the returned result, or, when
the call throws, the synthesised failure record of lines 96-102. -/
def outcomeOf (tester : DomainEntry → TesterBehaviour) (d : DomainEntry) : BatchResult :=
  match tester d with
  | TesterBehaviour.returns r => r
  | TesterBehaviour.throws _ => { url := d.domain, failed := true }

/-- The sequential for-loop of lines 70-104 over the selection, returning
`(results, successCount, failureCount)`: each target is tested once in
order; a returned result with `failed` or a thrown error increments the
failure tally, otherwise the success tally; every iteration pushes exactly
one record and the loop never aborts early. -/
def runSmartBatchLoop (tester : DomainEntry → TesterBehaviour) :
    List DomainEntry → List BatchResult × Nat × Nat
  | [] => ([], 0, 0)
  | d :: rest =>
    let r := outcomeOf tester d
    let acc := runSmartBatchLoop tester rest
    (r :: acc.1, (if r.failed then acc.2.1 else acc.2.1 + 1),
      (if r.failed then acc.2.2 + 1 else acc.2.2))

/-! ### saveScore (src/database.js, lines 49-88) -/

/-- The `scores` argument of `saveScore`; each field may be absent. -/
structure ScoresInput where
  performance : Option ℤ
  accessibility : Option ℤ
  bestPractices : Option ℤ
  seo : Option ℤ
  pwa : Option ℤ
deriving DecidableEq

/-- JS `x || 0` on a possibly absent number: absent or `0` (falsy) give
`0`, anything else gives the value. -/
def jsOr0 (o : Option ℤ) : ℤ :=
  match o with
  | none => 0
  | some v => if v = 0 then 0 else v

/-- A row of the `lighthouse_scores` table as inserted by lines 66-81. -/
structure ScoreRow where
  url : String
  country : String
  industry : String
  performance : ℤ
  accessibility : ℤ
  best_practices : ℤ
  seo : ℤ
  pwa : ℤ
deriving DecidableEq

/-- The two tables touched by `saveScore` and `saveFailedTest`. -/
structure DbState where
  lighthouse_scores : List ScoreRow
  lighthouse_failed_tests : List String
deriving DecidableEq

/-- `saveScore(url, country, industry, scores)` of lines 49-88: when all
five defaulted scores are `0`, record the url in
`lighthouse_failed_tests` (via `saveFailedTest`, lines 350-364) and
resolve with `null`; otherwise insert the row and resolve with its id. -/
def saveScore (st : DbState) (url country industry : String) (scores : ScoresInput) :
    DbState × Option Nat :=
  let performance := jsOr0 scores.performance
  let accessibility := jsOr0 scores.accessibility
  let bestPractices := jsOr0 scores.bestPractices
  let seo := jsOr0 scores.seo
  let pwa := jsOr0 scores.pwa
  if performance = 0 ∧ accessibility = 0 ∧ bestPractices = 0 ∧ seo = 0 ∧ pwa = 0 then
    ({ st with lighthouse_failed_tests := st.lighthouse_failed_tests ++ [url] }, none)
  else
    ({ st with lighthouse_scores := st.lighthouse_scores ++
        [{ url := url, country := country, industry := industry,
           performance := performance, accessibility := accessibility,
           best_practices := bestPractices, seo := seo, pwa := pwa }] },
      some (st.lighthouse_scores.length + 1))

/-! ### Concrete inputs for counterexamples and witnesses -/

/-- An error whose message is exactly `Session closed`: a member of the
retryable vocabulary of the session-closed class. -/
def sessionClosedError : JsError := mkJsError "Session closed"

/-- An environment in which every attempt throws `Session closed`. -/
def sessionClosedEnv : Nat → AttemptEvent := fun _ => AttemptEvent.throws sessionClosedError

/-- A db row with a single success 40 days old and no failures. -/
def staleSuccessRow : DbRow :=
  { total_tests := 1, success_count := 1, failure_count := 0,
    last_test_date := some 0, last_success_date := some 0, last_failure_date := none }

/-- 40 days in milliseconds, as the `now` instant for `staleSuccessRow`. -/
def fortyDaysMs : ℚ := 3456000000

/-- A never-tested entry named `n0`, `n1`, ... -/
def ntEntry (s : String) : DomainEntry :=
  { domain := s, country := "X", industry := "web",
    category := Category.never_tested, cooldownDaysRemaining := 0 }

/-- A cooldown-free reliable-success entry. -/
def rsEntry : DomainEntry :=
  { domain := "r0", country := "X", industry := "web",
    category := Category.reliable_success, cooldownDaysRemaining := 0 }

/-- Pools with ten cooldown-free never-tested domains and one cooldown-free
reliable-success domain. -/
def mixedPools : CategorizedDomains :=
  { never_tested := [ntEntry "n0", ntEntry "n1", ntEntry "n2", ntEntry "n3", ntEntry "n4",
      ntEntry "n5", ntEntry "n6", ntEntry "n7", ntEntry "n8", ntEntry "n9"]
  , reliable_success := [rsEntry]
  , recent_mixed := []
  , old_success := []
  , failed_only := [] }

/-- A single registry record for witness instances. -/
def wDomain : DomainInfo := { domain := "a", country := "X", industry := "web" }

/-- Pools with two never-tested domains only. -/
def ntOnlyPools : CategorizedDomains :=
  { never_tested := [ntEntry "n0", ntEntry "n1"]
  , reliable_success := []
  , recent_mixed := []
  , old_success := []
  , failed_only := [] }

/-- A scores argument that is all absent or zero. -/
def zeroScores : ScoresInput :=
  { performance := none, accessibility := none, bestPractices := none,
    seo := none, pwa := some 0 }

/-- An empty database state. -/
def emptyDb : DbState := { lighthouse_scores := [], lighthouse_failed_tests := [] }

/-! ## Unfolding lemmas for `runAudit` -/

/-- A well-formed attempt resolves to the five rounded scores with no
retry delay. -/
theorem runAudit_of_success (env : Nat → AttemptEvent) (r : Nat) (cats : Categories)
    (h : attemptOutcome (env r) = Sum.inl cats) :
    runAudit env r =
      (RunResult.scores (scoreToInt cats.performance) (scoreToInt cats.accessibility)
        (scoreToInt cats.best_practices) (scoreToInt cats.seo) (scoreToInt cats.pwa), []) := by
  rw [runAudit.eq_def, h]

/-- A retryable error below the retry cap recurses after waiting the
escalated delay. -/
theorem runAudit_of_retry (env : Nat → AttemptEvent) (r : Nat) (e : JsError)
    (h : attemptOutcome (env r) = Sum.inr e)
    (hc : r < maxRetries) (hr : isRetryable e = true) :
    runAudit env r =
      ((runAudit env (r + 1)).1, computeRetryDelay e :: (runAudit env (r + 1)).2) := by
  rw [runAudit.eq_def, h]
  exact dif_pos ⟨hc, hr⟩

/-- A terminal error (non-retryable, or retries exhausted) produces the
zero-score failure result with the truncated message. -/
theorem runAudit_of_stop (env : Nat → AttemptEvent) (r : Nat) (e : JsError)
    (h : attemptOutcome (env r) = Sum.inr e)
    (hc : ¬(r < maxRetries ∧ isRetryable e = true)) :
    runAudit env r = (RunResult.failure 0 0 0 0 0 (e.message.take 100), []) := by
  rw [runAudit.eq_def, h]
  exact dif_neg hc

/-- C1: for every behaviour of the external audit call and every starting
retry count, `runAudit` terminates (it is a total function) and returns
either five integer category scores or the failure shape: all five scores
`0`, the error flag set (the `failure` constructor) and the message
truncated to at most 100 characters; no exception crosses the boundary. -/
theorem runAudit_never_throws (env : Nat → AttemptEvent) (r : Nat) :
    (∃ p a b s w, (runAudit env r).1 = RunResult.scores p a b s w) ∨
    (∃ m, (runAudit env r).1 = RunResult.failure 0 0 0 0 0 m ∧ m.length ≤ 100) := by
  have main : ∀ k r : Nat, maxRetries - r ≤ k →
      (∃ p a b s w, (runAudit env r).1 = RunResult.scores p a b s w) ∨
      (∃ m, (runAudit env r).1 = RunResult.failure 0 0 0 0 0 m ∧ m.length ≤ 100) := by
    intro k
    induction k with
    | zero =>
      intro r hr
      cases hout : attemptOutcome (env r) with
      | inl cats =>
        left
        rw [runAudit_of_success env r cats hout]
        exact ⟨_, _, _, _, _, rfl⟩
      | inr e =>
        right
        have hc : ¬(r < maxRetries ∧ isRetryable e = true) := by
          intro hh
          omega
        rw [runAudit_of_stop env r e hout hc]
        exact ⟨_, rfl, by rw [List.length_take]; exact min_le_left _ _⟩
    | succ k ih =>
      intro r hr
      cases hout : attemptOutcome (env r) with
      | inl cats =>
        left
        rw [runAudit_of_success env r cats hout]
        exact ⟨_, _, _, _, _, rfl⟩
      | inr e =>
        by_cases hc : r < maxRetries ∧ isRetryable e = true
        · rw [runAudit_of_retry env r e hout hc.1 hc.2]
          exact ih (r + 1) (by omega)
        · right
          rw [runAudit_of_stop env r e hout hc]
          exact ⟨_, rfl, by rw [List.length_take]; exact min_le_left _ _⟩
  exact main maxRetries r (by omega)

/-- C6: whenever the 60-second timeout fires with a live, not yet killed
chrome process, the timeout callback attempts graceful termination (and,
when that fails and a pid exists, a forced kill) strictly before the
attempt is resolved to a timeout failure: the rejection is the last event
of the callback and every termination attempt precedes it. -/
theorem timeout_kill_before_reject
    (chromeLaunched chromeKilled gracefulKillOk hasPid : Bool)
    (hl : chromeLaunched = true) (hk : chromeKilled = false) :
    ∃ pre, timeoutHandlerTrace chromeLaunched chromeKilled gracefulKillOk hasPid =
        pre ++ [ChromeEvent.timeoutFailureRejected] ∧
      ChromeEvent.gracefulKillAttempt ∈ pre ∧
      ChromeEvent.timeoutFailureRejected ∉ pre ∧
      (gracefulKillOk = false → hasPid = true → ChromeEvent.forceKillAttempt ∈ pre) := by
  subst hl hk
  cases gracefulKillOk <;> cases hasPid <;>
    exact ⟨_, rfl, by decide, by decide, by intro h1 h2; revert h1 h2; decide⟩

/-- Witness for C6 at a concrete state: chrome alive, not yet killed,
graceful kill failing, pid known. -/
theorem timeout_kill_before_reject_witness :
    ∃ pre, timeoutHandlerTrace true false false true =
        pre ++ [ChromeEvent.timeoutFailureRejected] ∧
      ChromeEvent.gracefulKillAttempt ∈ pre ∧
      ChromeEvent.timeoutFailureRejected ∉ pre ∧
      (false = false → true = true → ChromeEvent.forceKillAttempt ∈ pre) :=
  timeout_kill_before_reject true false false true rfl rfl

/-- C7 counterexample: the error `Session closed` belongs to the
retryable vocabulary and is of the target/session-closed class in the
wording of the claim, yet `runAudit` waits only the base delay of 3000 ms
before each of its two retries: the delay is not roughly triple the
base. -/
theorem session_closed_delay_counterexample :
    isRetryable sessionClosedError = true ∧
    computeRetryDelay sessionClosedError = 3000 ∧
    (runAudit sessionClosedEnv 0).2 = [3000, 3000] := by
  have h2 : runAudit sessionClosedEnv 2 =
      (RunResult.failure 0 0 0 0 0 (sessionClosedError.message.take 100), []) :=
    runAudit_of_stop _ 2 _ rfl (by intro hh; exact absurd hh.1 (by norm_num [maxRetries]))
  have h1 : runAudit sessionClosedEnv 1 =
      ((runAudit sessionClosedEnv 2).1,
        computeRetryDelay sessionClosedError :: (runAudit sessionClosedEnv 2).2) :=
    runAudit_of_retry _ 1 _ rfl (by norm_num [maxRetries]) (by decide)
  have h0 : runAudit sessionClosedEnv 0 =
      ((runAudit sessionClosedEnv 1).1,
        computeRetryDelay sessionClosedError :: (runAudit sessionClosedEnv 1).2) :=
    runAudit_of_retry _ 0 _ rfl (by norm_num [maxRetries]) (by decide)
  refine ⟨by decide, by decide, ?_⟩
  rw [h0, h1, h2]
  decide

/-- C7 (amended): when an attempt fails with a retryable error and
`retryCount < maxRetries`, `runAudit` waits exactly one delay before
recursing with `retryCount + 1`, and the delay is 12000 ms (quadruple the
3000 ms base) for connection-class errors, 9000 ms (triple) only for the
`TargetCloseError` / `Target closed` class, 6000 ms (double) for other
timeout-marked errors, and the 3000 ms base otherwise — in particular
`Session closed` errors wait only the base delay. -/
theorem retry_delay_schedule (env : Nat → AttemptEvent) (r : Nat) (e : JsError)
    (hout : attemptOutcome (env r) = Sum.inr e)
    (hc : r < maxRetries) (hr : isRetryable e = true) :
    (runAudit env r).1 = (runAudit env (r + 1)).1 ∧
    (runAudit env r).2 = computeRetryDelay e :: (runAudit env (r + 1)).2 ∧
    computeRetryDelay e =
      (if includes e.message ("ERR_CONNECTION".data) || includes e.message ("ECONNREFUSED".data)
        then 12000
       else if includes e.message ("TargetCloseError".data) ||
          includes e.message ("Target closed".data) then 9000
       else if includes e.message ("timeout".data) then 6000
       else 3000) := by
  refine ⟨?_, ?_, ?_⟩
  · rw [runAudit_of_retry env r e hout hc hr]
  · rw [runAudit_of_retry env r e hout hc hr]
  · simp only [computeRetryDelay, retryDelay]

/-- Witness for C7 (amended) at the concrete `Session closed`
environment, starting at retry count 0. -/
theorem retry_delay_schedule_witness :
    (runAudit sessionClosedEnv 0).1 = (runAudit sessionClosedEnv 1).1 ∧
    (runAudit sessionClosedEnv 0).2 =
      computeRetryDelay sessionClosedError :: (runAudit sessionClosedEnv 1).2 ∧
    computeRetryDelay sessionClosedError =
      (if includes sessionClosedError.message ("ERR_CONNECTION".data) ||
          includes sessionClosedError.message ("ECONNREFUSED".data) then 12000
       else if includes sessionClosedError.message ("TargetCloseError".data) ||
          includes sessionClosedError.message ("Target closed".data) then 9000
       else if includes sessionClosedError.message ("timeout".data) then 6000
       else 3000) :=
  retry_delay_schedule sessionClosedEnv 0 sessionClosedError rfl
    (by norm_num [maxRetries]) (by decide)

/-! ## Categorizer theorems -/

/-- Counting inside a filtered list. -/
theorem count_filter_eq {α : Type} [DecidableEq α] (p : α → Bool) (l : List α) (a : α) :
    List.count a (l.filter p) = if p a then List.count a l else 0 := by
  by_cases h : p a = true
  · rw [List.count_filter h, if_pos h]
  · rw [if_neg h, List.count_eq_zero]
    intro hmem
    exact h (List.of_mem_filter hmem)

/-- C3: the categorizer partitions the registry: the five pools together
are a permutation of the enriched registry list (no target dropped, none
duplicated across pools), each pool holds only entries of its own
category (so no target carries two categories), and a target with no
history at all is `never_tested` with cooldown `0`. -/
theorem categorizer_partition (now : ℚ) (lookup : String → Option DbRow)
    (doms : List DomainInfo) :
    ((priorityOrder.map (poolOf (categorizeAll now lookup doms))).flatten).Perm
        (doms.map (enrich now lookup)) ∧
    (∀ c : Category, ∀ e ∈ poolOf (categorizeAll now lookup doms) c, e.category = c) ∧
    (∀ i : DomainInfo, lookup i.domain = none →
      (enrich now lookup i).category = Category.never_tested ∧
      (enrich now lookup i).cooldownDaysRemaining = 0) := by
  refine ⟨?_, ?_, ?_⟩
  · rw [List.perm_iff_count]
    intro e
    simp only [priorityOrder, categorizeAll, poolOf, List.map_cons, List.map_nil,
      List.flatten_cons, List.flatten_nil, List.append_nil, List.count_append,
      count_filter_eq]
    cases he : e.category <;> simp [he]
  · intro c e hmem
    cases c <;>
      (simp only [categorizeAll, poolOf, List.mem_filter] at hmem
       exact of_decide_eq_true hmem.2)
  · intro i hnone
    simp [enrich, categorizeDomain, hnone]

/-- Witness for C3: a registry entry whose url has no history is
categorized `never_tested` with cooldown `0`. -/
theorem categorizer_partition_witness :
    (enrich 0 (fun _ => none) wDomain).category = Category.never_tested ∧
    (enrich 0 (fun _ => none) wDomain).cooldownDaysRemaining = 0 :=
  (categorizer_partition 0 (fun _ => none) [wDomain]).2.2 wDomain rfl

/-- C4 counterexample: a target with one recorded success, 40 days old
(older than 30 days), is assigned `old_success`, not `failed_only`: the
`old_success` branch (most recent success older than 14 days) fires
before the 30-day disjunct of the `failed_only` branch is reached. -/
theorem stale_success_counterexample :
    0 < staleSuccessRow.success_count ∧
    staleSuccessRow.last_success_date = some 0 ∧
    30 < daysBetween fortyDaysMs 0 ∧
    (categorizeDomain fortyDaysMs (some staleSuccessRow)).1 = Category.old_success ∧
    (categorizeDomain fortyDaysMs (some staleSuccessRow)).1 ≠ Category.failed_only := by
  refine ⟨by norm_num [staleSuccessRow], rfl,
    by norm_num [daysBetween, fortyDaysMs], ?_, ?_⟩ <;>
    · norm_num [categorizeDomain, categoryFor, successWithin, successOlderThan,
        daysBetween, fortyDaysMs, staleSuccessRow]
      try decide

/-- C4 (amended): every target with at least one recorded success whose
most recent success is older than 30 days — indeed, older than 14 days —
is assigned `old_success`; the over-30-days disjunct of `failed_only` is
unreachable for targets with a recorded success. -/
theorem stale_success_is_old_success (now : ℚ) (d : DbRow) (ls : ℚ)
    (h1 : 0 < d.success_count) (hls : d.last_success_date = some ls)
    (h30 : 30 < daysBetween now ls) :
    (categorizeDomain now (some d)).1 = Category.old_success := by
  have e7 : decide (daysBetween now ls ≤ 7) = false := decide_eq_false (by linarith)
  have e14a : decide (daysBetween now ls ≤ 14) = false := decide_eq_false (by linarith)
  have e14b : decide ((14 : ℚ) < daysBetween now ls) = true := decide_eq_true (by linarith)
  have ec : decide (0 < d.success_count) = true := decide_eq_true h1
  simp [categorizeDomain, categoryFor, successWithin, successOlderThan, hls,
    e7, e14a, e14b, ec]

/-- Witness for C4 (amended) at the concrete 40-day-old success row. -/
theorem stale_success_is_old_success_witness :
    (categorizeDomain fortyDaysMs (some staleSuccessRow)).1 = Category.old_success :=
  stale_success_is_old_success fortyDaysMs staleSuccessRow 0
    (by norm_num [staleSuccessRow]) rfl (by norm_num [daysBetween, fortyDaysMs])

/-- C5: the derived cooldown is `1` (hence positive) when the most recent
failure is less than 1 day old, the remainder of a 3-day window
(`3 - ⌊days⌋`) when 1-3 days old, the remainder of a 7-day window
(`7 - ⌊days⌋`) when 3-7 days old, and `0` when the most recent failure is
7 or more days old or no failure is recorded at all. -/
theorem cooldown_formula (now lf : ℚ) :
    cooldownFor now none = 0 ∧
    (daysBetween now lf < 1 →
      cooldownFor now (some lf) = 1 ∧ 0 < cooldownFor now (some lf)) ∧
    (1 ≤ daysBetween now lf → daysBetween now lf < 3 →
      cooldownFor now (some lf) = 3 - ⌊daysBetween now lf⌋) ∧
    (3 ≤ daysBetween now lf → daysBetween now lf < 7 →
      cooldownFor now (some lf) = 7 - ⌊daysBetween now lf⌋) ∧
    (7 ≤ daysBetween now lf → cooldownFor now (some lf) = 0) := by
  refine ⟨rfl, ?_, ?_, ?_, ?_⟩
  · intro h
    have hv : cooldownFor now (some lf) = 1 := by
      simp only [cooldownFor]
      rw [if_pos h]
    exact ⟨hv, by rw [hv]; norm_num⟩
  · intro h1 h3
    simp only [cooldownFor]
    rw [if_neg (by linarith), if_pos h3]
  · intro h3 h7
    simp only [cooldownFor]
    rw [if_neg (by linarith), if_neg (by linarith), if_pos h7]
  · intro h7
    simp only [cooldownFor]
    rw [if_neg (by linarith), if_neg (by linarith), if_neg (by linarith)]

/-- Witness for C5: a failure recorded at the evaluation instant itself
(age 0, less than a day) gives cooldown exactly 1, in particular a
positive cooldown. -/
theorem cooldown_formula_witness :
    cooldownFor 0 (some 0) = 1 ∧ 0 < cooldownFor 0 (some 0) :=
  (cooldown_formula 0 0).2.1 (by norm_num [daysBetween])

/-- The fall-through of the classification chain is unreachable when db
data exists: a target with history never keeps the initial
`never_tested` value. -/
theorem categoryFor_ne_never_tested (now : ℚ) (d : DbRow) :
    categoryFor now d ≠ Category.never_tested := by
  unfold categoryFor
  cases hls : d.last_success_date with
  | none =>
    simp [successWithin, successOlderThan, hls]
  | some ls =>
    simp only [successWithin, successOlderThan, hls]
    split_ifs with h1 h2 h3 h4 <;> try simp
    exfalso
    simp only [Bool.and_eq_true, Bool.or_eq_true, decide_eq_true_eq,
      Option.isNone_some, Bool.false_eq_true, or_false] at h2 h3 h4
    rcases Nat.eq_zero_or_pos d.success_count with hc | hc
    · exact h4 (Or.inl hc)
    · rcases le_or_lt (daysBetween now ls) 14 with hd | hd
      · exact h2 ⟨by exact_mod_cast hc, hd⟩
      · exact h3 ⟨by exact_mod_cast hc, hd⟩

/-- Entries of the `never_tested` pool produced by the categorizer always
carry cooldown `0`: they are exactly the no-history targets.  This
discharges, for real categorizer output, the cooldown-freedom assumption
on the `never_tested` pool used by the allocator theorems. -/
theorem categorizeAll_never_tested_cooldown (now : ℚ)
    (lookup : String → Option DbRow) (doms : List DomainInfo) :
    ∀ e ∈ (categorizeAll now lookup doms).never_tested, e.cooldownDaysRemaining = 0 := by
  intro e he
  have hmem := List.mem_filter.mp he
  obtain ⟨i, hi, rfl⟩ := List.mem_map.mp hmem.1
  have hcat := of_decide_eq_true hmem.2
  cases hlk : lookup i.domain with
  | none => simp [enrich, categorizeDomain, hlk]
  | some d =>
    exfalso
    have hbad : categoryFor now d = Category.never_tested := by
      simpa [enrich, categorizeDomain, hlk] using hcat
    exact categoryFor_ne_never_tested now d hbad

/-! ## Allocator theorems -/

/-- Every entry of an available pool is cooldown-free, provided the
`never_tested` pool is (the other four pools are filtered by the code). -/
theorem avail_cooldown {p : CategorizedDomains}
    (hnt : ∀ d ∈ p.never_tested, d.cooldownDaysRemaining = 0) (c : Category) :
    ∀ d ∈ availableDomainsOf p c, d.cooldownDaysRemaining = 0 := by
  cases c with
  | never_tested => exact hnt
  | reliable_success =>
    intro d hd
    exact of_decide_eq_true (List.mem_filter.mp hd).2
  | recent_mixed =>
    intro d hd
    exact of_decide_eq_true (List.mem_filter.mp hd).2
  | old_success =>
    intro d hd
    exact of_decide_eq_true (List.mem_filter.mp hd).2
  | failed_only =>
    intro d hd
    exact of_decide_eq_true (List.mem_filter.mp hd).2

/-- The concatenated available pools form a sublist of the concatenated
raw pools. -/
theorem availFlatten_sublist (p : CategorizedDomains) :
    ((priorityOrder.map (availableDomainsOf p)).flatten).Sublist
      ((priorityOrder.map (poolOf p)).flatten) := by
  simp only [priorityOrder, List.map_cons, List.map_nil, List.flatten_cons,
    List.flatten_nil, List.append_nil, availableDomainsOf, poolOf]
  exact (List.Sublist.refl _).append ((List.filter_sublist _).append
    ((List.filter_sublist _).append
      ((List.filter_sublist _).append (List.filter_sublist _))))

/-- Every element selected by the per-category loop comes from the
available pool of some category. -/
theorem mem_selChunks {alloc : Category → Nat} {avail : Category → List DomainEntry}
    {shuffle : Category → List DomainEntry → List DomainEntry}
    (hs : ∀ c l, (shuffle c l).Perm l) {d : DomainEntry}
    (hd : d ∈ selChunks alloc avail shuffle) :
    ∃ c, c ∈ priorityOrder ∧ d ∈ avail c := by
  simp only [selChunks, List.mem_flatten, List.mem_map] at hd
  obtain ⟨l, ⟨c, hc, rfl⟩, hdl⟩ := hd
  refine ⟨c, hc, ?_⟩
  split at hdl
  · exact ((hs c (avail c)).mem_iff).mp (List.take_subset _ _ hdl)
  · cases hdl

/-- Chunks drawn from pairwise sources: membership transfer to the
source side. -/
theorem mem_flatten_of_pairs {α : Type} (pairs : List (List α × List α))
    (hsub : ∀ pr ∈ pairs, ∀ d ∈ pr.1, d ∈ pr.2) :
    ∀ d ∈ (pairs.map Prod.fst).flatten, d ∈ (pairs.map Prod.snd).flatten := by
  intro d hd
  simp only [List.mem_flatten, List.mem_map] at hd ⊢
  obtain ⟨l, ⟨pr, hpr, rfl⟩, hdl⟩ := hd
  exact ⟨pr.2, ⟨pr, hpr, rfl⟩, hsub pr hpr d hdl⟩

/-- When each chunk is duplicate-free on keys and drawn from its own
source, and the concatenated sources are duplicate-free on keys, the
concatenated chunks are duplicate-free on keys. -/
theorem flatten_chunks_nodup {α β : Type} [DecidableEq β] (f : α → β) :
    ∀ pairs : List (List α × List α),
      (∀ pr ∈ pairs, ∀ d ∈ pr.1, d ∈ pr.2) →
      (∀ pr ∈ pairs, (pr.1.map f).Nodup) →
      (((pairs.map Prod.snd).flatten).map f).Nodup →
      (((pairs.map Prod.fst).flatten).map f).Nodup := by
  intro pairs
  induction pairs with
  | nil =>
    intro _ _ _
    simp
  | cons pr rest ih =>
    intro hsub hnd hbig
    simp only [List.map_cons, List.flatten_cons, List.map_append] at hbig ⊢
    rw [List.nodup_append] at hbig
    refine List.Nodup.append (hnd pr (by simp)) (ih ?_ ?_ hbig.2.1) ?_
    · intro q hq
      exact hsub q (by simp [hq])
    · intro q hq
      exact hnd q (by simp [hq])
    · intro x hx1 hx2
      obtain ⟨d, hd, rfl⟩ := List.mem_map.mp hx1
      obtain ⟨d2, hd2, he⟩ := List.mem_map.mp hx2
      have hd2s : d2 ∈ (rest.map Prod.snd).flatten :=
        mem_flatten_of_pairs rest (fun q hq => hsub q (by simp [hq])) d2 hd2
      exact hbig.2.2 (List.mem_map_of_mem f (hsub pr (by simp) d hd))
        (he ▸ List.mem_map_of_mem f hd2s)

/-- The per-category selection is duplicate-free on domain ids whenever
the concatenated available pools are. -/
theorem selChunks_nodup {alloc : Category → Nat} {avail : Category → List DomainEntry}
    {shuffle : Category → List DomainEntry → List DomainEntry}
    (hs : ∀ c l, (shuffle c l).Perm l)
    (hav : (((priorityOrder.map avail).flatten).map DomainEntry.domain).Nodup) :
    ((selChunks alloc avail shuffle).map DomainEntry.domain).Nodup := by
  have key := flatten_chunks_nodup DomainEntry.domain
    (priorityOrder.map fun c =>
      ((if 0 < alloc c ∧ avail c ≠ [] then (shuffle c (avail c)).take (alloc c) else []),
        avail c))
    ?_ ?_ ?_
  · have hface : ((priorityOrder.map fun c =>
        ((if 0 < alloc c ∧ avail c ≠ [] then (shuffle c (avail c)).take (alloc c) else []),
          avail c)).map Prod.fst).flatten = selChunks alloc avail shuffle := by
      simp only [selChunks, List.map_map]
      rfl
    rwa [hface] at key
  · intro pr hpr d hd
    simp only [List.mem_map] at hpr
    obtain ⟨c, hc, rfl⟩ := hpr
    dsimp at hd ⊢
    split at hd
    · exact ((hs c (avail c)).mem_iff).mp (List.take_subset _ _ hd)
    · cases hd
  · intro pr hpr
    simp only [List.mem_map] at hpr
    obtain ⟨c, hc, rfl⟩ := hpr
    dsimp
    split
    · have h1 : ((avail c).map DomainEntry.domain).Nodup :=
        (((List.sublist_flatten_of_mem
          (List.mem_map_of_mem avail hc))).map DomainEntry.domain).nodup hav
      have h2 : (((shuffle c (avail c)).map DomainEntry.domain)).Nodup :=
        (((hs c (avail c)).map DomainEntry.domain).nodup_iff).mpr h1
      rw [List.map_take]
      exact (List.take_sublist _ _).nodup h2
    · simp
  · have hsnd : ((priorityOrder.map fun c =>
        ((if 0 < alloc c ∧ avail c ≠ [] then (shuffle c (avail c)).take (alloc c) else []),
          avail c)).map Prod.snd) = priorityOrder.map avail := by
      simp only [List.map_map]
      rfl
    rw [hsnd]
    exact hav

/-- Every element of the filled selection comes from the selection it
extends or from some available pool. -/
theorem mem_fillSelection {batchSize : Nat} {avail : Category → List DomainEntry}
    {fillShuffle : List DomainEntry → List DomainEntry} {sel : List DomainEntry}
    (hf : ∀ l, (fillShuffle l).Perm l) {d : DomainEntry}
    (hd : d ∈ fillSelection batchSize avail fillShuffle sel) :
    d ∈ sel ∨ ∃ c, c ∈ priorityOrder ∧ d ∈ avail c := by
  simp only [fillSelection] at hd
  split at hd
  · split at hd
    · rcases List.mem_append.mp hd with h | h
      · exact Or.inl h
      · right
        have h1 := List.take_subset _ _ h
        have h2 := ((hf _).mem_iff).mp h1
        have h3 := (List.mem_filter.mp h2).1
        simp only [List.mem_flatten, List.mem_map] at h3
        obtain ⟨l, ⟨c, hc, rfl⟩, hdl⟩ := h3
        exact ⟨c, hc, hdl⟩
    · exact Or.inl hd
  · exact Or.inl hd

/-- The filler preserves duplicate-freedom on domain ids: it only appends
available entries whose ids are not yet used. -/
theorem fillSelection_nodup {batchSize : Nat} {avail : Category → List DomainEntry}
    {fillShuffle : List DomainEntry → List DomainEntry} {sel : List DomainEntry}
    (hf : ∀ l, (fillShuffle l).Perm l)
    (hselnd : (sel.map DomainEntry.domain).Nodup)
    (hav : (((priorityOrder.map avail).flatten).map DomainEntry.domain).Nodup) :
    ((fillSelection batchSize avail fillShuffle sel).map DomainEntry.domain).Nodup := by
  simp only [fillSelection]
  split
  · split
    · rw [List.map_append]
      refine List.Nodup.append hselnd ?_ ?_
      · have h1 : (((priorityOrder.map avail).flatten.filter fun d =>
            decide (d.domain ∉ sel.map DomainEntry.domain)).map DomainEntry.domain).Nodup :=
          ((List.filter_sublist _).map DomainEntry.domain).nodup hav
        have h2 := (((hf _).map DomainEntry.domain).nodup_iff).mpr h1
        rw [List.map_take]
        exact (List.take_sublist _ _).nodup h2
      · intro x hx1 hx2
        obtain ⟨d, hd, rfl⟩ := List.mem_map.mp hx2
        have h1 := List.take_subset _ _ hd
        have h2 := ((hf _).mem_iff).mp h1
        have h3 := of_decide_eq_true (List.mem_filter.mp h2).2
        exact h3 hx1
    · exact hselnd
  · exact hselnd

/-- C2: for every batch size, percentage assignment and categorized
pools whose `never_tested` pool is cooldown-free and whose pools jointly
carry no duplicate domain id, and for every pair of rearrangement
functions standing for the random sorts, the selection returned by
`getSmartBatch` is duplicate-free on domain ids, consists only of
cooldown-free entries, and has length at most the batch size. -/
theorem getSmartBatch_selection_invariants
    (p : CategorizedDomains) (batchSize : Nat) (pct : Category → Nat)
    (shuffle : Category → List DomainEntry → List DomainEntry)
    (fillShuffle : List DomainEntry → List DomainEntry)
    (hs : ∀ c l, (shuffle c l).Perm l)
    (hf : ∀ l, (fillShuffle l).Perm l)
    (hnt : ∀ d ∈ p.never_tested, d.cooldownDaysRemaining = 0)
    (hnodup : (((priorityOrder.map (poolOf p)).flatten).map DomainEntry.domain).Nodup) :
    (((getSmartBatch p batchSize pct shuffle fillShuffle).selectedDomains).map
        DomainEntry.domain).Nodup ∧
    (∀ d ∈ (getSmartBatch p batchSize pct shuffle fillShuffle).selectedDomains,
      d.cooldownDaysRemaining = 0) ∧
    (getSmartBatch p batchSize pct shuffle fillShuffle).selectedDomains.length ≤ batchSize := by
  have hav : (((priorityOrder.map (availableDomainsOf p)).flatten).map
      DomainEntry.domain).Nodup :=
    ((availFlatten_sublist p).map DomainEntry.domain).nodup hnodup
  have hsel : (getSmartBatch p batchSize pct shuffle fillShuffle).selectedDomains =
      (fillSelection batchSize (availableDomainsOf p) fillShuffle
        (selChunks
          (calculateAdaptiveAllocation (fun c => (availableDomainsOf p c).length)
            batchSize pct)
          (availableDomainsOf p) shuffle)).take batchSize := rfl
  rw [hsel]
  refine ⟨?_, ?_, ?_⟩
  · rw [List.map_take]
    exact (List.take_sublist _ _).nodup
      (fillSelection_nodup hf (selChunks_nodup hs hav) hav)
  · intro d hd
    have hd1 := List.take_subset _ _ hd
    rcases mem_fillSelection hf hd1 with h | h
    · obtain ⟨c, _, hmem⟩ := mem_selChunks hs h
      exact avail_cooldown hnt c d hmem
    · obtain ⟨c, _, hmem⟩ := h
      exact avail_cooldown hnt c d hmem
  · rw [List.length_take]
    exact min_le_left _ _

/-- Witness for C2 at concrete pools (two never-tested domains), batch
size 1, default percentages, identity rearrangements. -/
theorem getSmartBatch_selection_invariants_witness :
    (((getSmartBatch ntOnlyPools 1 defaultPercentages (fun _ l => l)
        (fun l => l)).selectedDomains).map DomainEntry.domain).Nodup ∧
    (∀ d ∈ (getSmartBatch ntOnlyPools 1 defaultPercentages (fun _ l => l)
        (fun l => l)).selectedDomains, d.cooldownDaysRemaining = 0) ∧
    (getSmartBatch ntOnlyPools 1 defaultPercentages (fun _ l => l)
        (fun l => l)).selectedDomains.length ≤ 1 :=
  getSmartBatch_selection_invariants ntOnlyPools 1 defaultPercentages
    (fun _ l => l) (fun l => l) (fun _ l => List.Perm.refl l)
    (fun l => List.Perm.refl l) (by decide) (by decide)

set_option maxHeartbeats 1600000 in
/-- When only the `never_tested` pool has available entries and it can
cover the whole batch, the adaptive allocation assigns the entire batch
to `never_tested` and zero to every other category. -/
theorem alloc_of_empty (p : CategorizedDomains) (b : Nat)
    (hrs : availableDomainsOf p Category.reliable_success = [])
    (hrm : availableDomainsOf p Category.recent_mixed = [])
    (hos : availableDomainsOf p Category.old_success = [])
    (hfo : availableDomainsOf p Category.failed_only = [])
    (hn : b ≤ p.never_tested.length) :
    calculateAdaptiveAllocation (fun c => (availableDomainsOf p c).length) b
        defaultPercentages Category.never_tested = b ∧
    (∀ c : Category, c ≠ Category.never_tested →
      calculateAdaptiveAllocation (fun c => (availableDomainsOf p c).length) b
        defaultPercentages c = 0) := by
  have lrs : (availableDomainsOf p Category.reliable_success).length = 0 := by
    rw [hrs]
    rfl
  have lrm : (availableDomainsOf p Category.recent_mixed).length = 0 := by
    rw [hrm]
    rfl
  have los : (availableDomainsOf p Category.old_success).length = 0 := by
    rw [hos]
    rfl
  have lfo : (availableDomainsOf p Category.failed_only).length = 0 := by
    rw [hfo]
    rfl
  have lnt : (availableDomainsOf p Category.never_tested).length =
      p.never_tested.length := rfl
  constructor
  · simp [calculateAdaptiveAllocation, redistributeAux, priorityOrder,
      defaultPercentages, lrs, lrm, los, lfo, lnt]
    try omega
  · intro c hc
    cases c with
    | never_tested => exact absurd rfl hc
    | reliable_success =>
      simp [calculateAdaptiveAllocation, redistributeAux, priorityOrder,
        defaultPercentages, lrs, lrm, los, lfo, lnt]
      try omega
    | recent_mixed =>
      simp [calculateAdaptiveAllocation, redistributeAux, priorityOrder,
        defaultPercentages, lrs, lrm, los, lfo, lnt]
      try omega
    | old_success =>
      simp [calculateAdaptiveAllocation, redistributeAux, priorityOrder,
        defaultPercentages, lrs, lrm, los, lfo, lnt]
      try omega
    | failed_only =>
      simp [calculateAdaptiveAllocation, redistributeAux, priorityOrder,
        defaultPercentages, lrs, lrm, los, lfo, lnt]
      try omega

/-- C8 (amended): when the `never_tested` pool holds at least `batchSize`
targets and the four other pools have no cooldown-free target at all,
the selection under the default percentages is drawn entirely from the
`never_tested` pool and has length exactly `batchSize`.  (Without the
emptiness condition the other pools receive their percentage shares, see
the counterexample.) -/
theorem never_tested_priority (p : CategorizedDomains) (b : Nat)
    (shuffle : Category → List DomainEntry → List DomainEntry)
    (fillShuffle : List DomainEntry → List DomainEntry)
    (hs : ∀ c l, (shuffle c l).Perm l)
    (hf : ∀ l, (fillShuffle l).Perm l)
    (hn : b ≤ p.never_tested.length)
    (hempty : ∀ c : Category, c ≠ Category.never_tested → availableDomainsOf p c = []) :
    (∀ d ∈ (getSmartBatch p b defaultPercentages shuffle fillShuffle).selectedDomains,
      d ∈ p.never_tested) ∧
    (getSmartBatch p b defaultPercentages shuffle fillShuffle).selectedDomains.length = b := by
  have hmemNT : ∀ c : Category, ∀ d ∈ availableDomainsOf p c, d ∈ p.never_tested := by
    intro c d hd
    by_cases hc : c = Category.never_tested
    · subst hc
      exact hd
    · rw [hempty c hc] at hd
      cases hd
  have halloc := alloc_of_empty p b (hempty _ (by decide)) (hempty _ (by decide))
    (hempty _ (by decide)) (hempty _ (by decide)) hn
  have hsel : (getSmartBatch p b defaultPercentages shuffle fillShuffle).selectedDomains =
      (fillSelection b (availableDomainsOf p) fillShuffle
        (selChunks
          (calculateAdaptiveAllocation (fun c => (availableDomainsOf p c).length)
            b defaultPercentages)
          (availableDomainsOf p) shuffle)).take b := rfl
  constructor
  · intro d hd
    rw [hsel] at hd
    have hd1 := List.take_subset _ _ hd
    rcases mem_fillSelection hf hd1 with h | h
    · obtain ⟨c, _, hmem⟩ := mem_selChunks hs h
      exact hmemNT c d hmem
    · obtain ⟨c, _, hmem⟩ := h
      exact hmemNT c d hmem
  · rw [hsel]
    have hz : ∀ c : Category, c ≠ Category.never_tested →
        (if 0 < calculateAdaptiveAllocation (fun c => (availableDomainsOf p c).length)
              b defaultPercentages c ∧ availableDomainsOf p c ≠ [] then
          (shuffle c (availableDomainsOf p c)).take
            (calculateAdaptiveAllocation (fun c => (availableDomainsOf p c).length)
              b defaultPercentages c)
        else []) = [] := by
      intro c hc
      rw [if_neg]
      intro hcond
      rw [halloc.2 c hc] at hcond
      exact absurd hcond.1 (by norm_num)
    have hchunks : selChunks
        (calculateAdaptiveAllocation (fun c => (availableDomainsOf p c).length)
          b defaultPercentages) (availableDomainsOf p) shuffle =
        (if 0 < calculateAdaptiveAllocation (fun c => (availableDomainsOf p c).length)
              b defaultPercentages Category.never_tested ∧
            availableDomainsOf p Category.never_tested ≠ [] then
          (shuffle Category.never_tested
            (availableDomainsOf p Category.never_tested)).take
              (calculateAdaptiveAllocation
                (fun c => (availableDomainsOf p c).length) b defaultPercentages
                Category.never_tested)
        else []) := by
      simp only [selChunks, priorityOrder, List.map_cons, List.map_nil,
        List.flatten_cons, List.flatten_nil, List.append_nil]
      rw [hz Category.reliable_success (by decide), hz Category.recent_mixed (by decide),
        hz Category.old_success (by decide), hz Category.failed_only (by decide)]
      simp
    rw [hchunks, halloc.1]
    by_cases hb : 0 < b
    · rw [if_pos ⟨hb, List.ne_nil_of_length_pos (lt_of_lt_of_le hb hn)⟩]
      have hlen : ((shuffle Category.never_tested
          (availableDomainsOf p Category.never_tested)).take b).length = b := by
        rw [List.length_take,
          (hs Category.never_tested (availableDomainsOf p Category.never_tested)).length_eq]
        show min b p.never_tested.length = b
        omega
      have hfill : fillSelection b (availableDomainsOf p) fillShuffle
          ((shuffle Category.never_tested
            (availableDomainsOf p Category.never_tested)).take b) =
          (shuffle Category.never_tested
            (availableDomainsOf p Category.never_tested)).take b := by
        simp only [fillSelection]
        rw [if_neg (by omega)]
      rw [hfill, List.length_take, hlen]
      omega
    · rw [if_neg fun hcond => absurd hcond.1 (by omega)]
      rw [List.length_take]
      omega

/-- Witness for C8 (amended): two never-tested domains, batch size 2,
empty other pools. -/
theorem never_tested_priority_witness :
    (∀ d ∈ (getSmartBatch ntOnlyPools 2 defaultPercentages (fun _ l => l)
        (fun l => l)).selectedDomains, d ∈ ntOnlyPools.never_tested) ∧
    (getSmartBatch ntOnlyPools 2 defaultPercentages (fun _ l => l)
        (fun l => l)).selectedDomains.length = 2 :=
  never_tested_priority ntOnlyPools 2 (fun _ l => l) (fun l => l)
    (fun _ l => List.Perm.refl l) (fun l => List.Perm.refl l) (by norm_num [ntOnlyPools])
    (by
      intro c hc
      cases c with
      | never_tested => exact absurd rfl hc
      | reliable_success => rfl
      | recent_mixed => rfl
      | old_success => rfl
      | failed_only => rfl)

/-- C8 counterexample: with ten cooldown-free never-tested domains
(`≥ batchSize = 10`) but also one cooldown-free reliable-success domain,
the default percentages allocate a slot to `reliable_success`, so the
selection is not drawn from the `never_tested` pool only. -/
theorem priority_exhaustion_counterexample :
    10 ≤ mixedPools.never_tested.length ∧
    (∀ d ∈ mixedPools.never_tested, d.cooldownDaysRemaining = 0) ∧
    ¬ (∀ d ∈ (getSmartBatch mixedPools 10 defaultPercentages (fun _ l => l)
        (fun l => l)).selectedDomains, d ∈ mixedPools.never_tested) := by
  refine ⟨by decide, by decide, ?_⟩
  decide

/-! ## Batch runner theorems -/

/-- C9: for every engine behaviour and every selection list, the batch
loop invokes the engine once per selected target in order (the recorded
outcomes are exactly the per-target outcomes, in selection order), no
single failure — returned or thrown — aborts the loop, and the success
and failure tallies sum to the number of selected targets. -/
theorem runSmartBatch_loop_complete (tester : DomainEntry → TesterBehaviour)
    (sel : List DomainEntry) :
    (runSmartBatchLoop tester sel).1 = sel.map (outcomeOf tester) ∧
    (runSmartBatchLoop tester sel).1.length = sel.length ∧
    (runSmartBatchLoop tester sel).2.1 + (runSmartBatchLoop tester sel).2.2 = sel.length := by
  induction sel with
  | nil => exact ⟨rfl, rfl, rfl⟩
  | cons d rest ih =>
    refine ⟨?_, ?_, ?_⟩
    · simp only [runSmartBatchLoop, List.map_cons]
      rw [ih.1]
    · simp only [runSmartBatchLoop, List.length_cons]
      rw [ih.2.1]
    · simp only [runSmartBatchLoop, List.length_cons]
      by_cases hfail : (outcomeOf tester d).failed = true <;> simp [hfail] <;> omega

/-! ## saveScore theorems -/

/-- C10: when all five scores passed to `saveScore` are `0` or absent,
no row is inserted into `lighthouse_scores` (the table is unchanged), the
url is appended to `lighthouse_failed_tests`, and the call resolves with
`null`. -/
theorem saveScore_all_zero (st : DbState) (url country industry : String)
    (scores : ScoresInput)
    (hp : scores.performance = none ∨ scores.performance = some 0)
    (ha : scores.accessibility = none ∨ scores.accessibility = some 0)
    (hb : scores.bestPractices = none ∨ scores.bestPractices = some 0)
    (hs : scores.seo = none ∨ scores.seo = some 0)
    (hw : scores.pwa = none ∨ scores.pwa = some 0) :
    (saveScore st url country industry scores).1.lighthouse_scores =
        st.lighthouse_scores ∧
    (saveScore st url country industry scores).1.lighthouse_failed_tests =
        st.lighthouse_failed_tests ++ [url] ∧
    (saveScore st url country industry scores).2 = none := by
  have hz : ∀ o : Option ℤ, o = none ∨ o = some 0 → jsOr0 o = 0 := by
    rintro o (rfl | rfl) <;> simp [jsOr0]
  simp only [saveScore]
  rw [if_pos ⟨hz _ hp, hz _ ha, hz _ hb, hz _ hs, hz _ hw⟩]
  exact ⟨rfl, rfl, rfl⟩

/-- Witness for C10: an all-absent-or-zero scores object on the empty
database records the url as failed, leaves the scores table empty and
resolves with `null`. -/
theorem saveScore_all_zero_witness :
    (saveScore emptyDb "a" "X" "web" zeroScores).1.lighthouse_scores =
        emptyDb.lighthouse_scores ∧
    (saveScore emptyDb "a" "X" "web" zeroScores).1.lighthouse_failed_tests =
        emptyDb.lighthouse_failed_tests ++ ["a"] ∧
    (saveScore emptyDb "a" "X" "web" zeroScores).2 = none :=
  saveScore_all_zero emptyDb "a" "X" "web" zeroScores (Or.inl rfl) (Or.inl rfl)
    (Or.inl rfl) (Or.inl rfl) (Or.inr rfl)

end LighthouseTester
